import Mathlib

/-!
Shallow embedding of the task-orchestration engine of `arch_wsl_setup.py`
(Arch-WSL-One-Click). Python state (filesystem, registry dictionaries,
loggers, the process tracker) is made explicit; machine behaviour that is
pure bookkeeping (appending to lists, regex-based masking, menu parsing,
retry loops) is translated function-by-function from the source. Wall-clock
durations, `time.sleep`, and the actual spawning of subprocesses are not
modelled: a command executor is passed in as a function from the effective
command line to its exit status, and log output is modelled as the list of
emitted (level, text) lines.
-/

/-- Task execution states, from the `TaskStatus` enum (src lines 35-41). -/
inductive TaskStatus where
  | pending
  | running
  | success
  | skipped
  | failed
  deriving DecidableEq, Repr

/-- One log line of the dual logger: severity level and message text.
Models a `DualLogger.log` / `logger.debug` call (src lines 259-287). -/
structure LogLine where
  level : String
  text : String
  deriving DecidableEq, Repr

/-- A registered cleanup entry, from `CleanupManager.register`
(src lines 109-116): path, kind (`"file"` or `"dir"`), optional owning
user, free-text description. -/
structure CleanupItem where
  path : String
  itemType : String
  user : Option String
  description : String
  deriving DecidableEq, Repr

/-- The state the cleanup manager acts on: the process-wide list of
registered items, plus the set of filesystem paths that currently exist
on disk (the disk is modelled as a flat list of artifact paths). -/
structure SysState where
  items : List CleanupItem
  disk : List String
  deriving DecidableEq, Repr

/-- Models `CleanupManager.register` (src lines 109-116): appends one entry. -/
def CleanupManager.register (st : SysState) (path : String) (itemType : String)
    (user : Option String) (description : String) : SysState :=
  { st with items := st.items ++ [⟨path, itemType, user, description⟩] }

/-- The inline entry-removal pattern used by tasks after success
(src lines 760-763, 889-892, 940-943): the ledger is reassigned to the
list of items whose path differs from the claimed one. This is the
code's `unregister(path)` operation. -/
def CleanupManager.unregister (st : SysState) (path : String) : SysState :=
  { st with items := st.items.filter (fun it => !(it.path == path)) }

/-- Models `CleanupManager.cleanup` (src lines 118-149): every registered item
whose path still exists on disk is deleted (`rm -f` / `rm -rf`, run with
`check=False`, so deletion is modelled as always removing the path), the
others are skipped, and the ledger is cleared. Returns the new state and
the list of deleted paths. -/
def CleanupManager.cleanup (st : SysState) : SysState × List String :=
  let deleted := (st.items.filter (fun it => st.disk.contains it.path)).map
    (fun it => it.path)
  ( { items := [],
      disk := st.disk.filter (fun p => !(st.items.any (fun it => it.path == p))) },
    deleted )

/-- Models `CleanupManager.clear` (src lines 151-153): empties the ledger without
touching the disk. -/
def CleanupManager.clear (st : SysState) : SysState :=
  { st with items := [] }

/-- Models `signal_handler` (src lines 1136-1142), installed for both SIGINT (2)
and SIGTERM (15) at src lines 1156-1157: logs, runs
`CleanupManager.cleanup`, and terminates the process via `sys.exit(130)`
— the literal constant `130  # 128 + SIGINT(2)`, independent of which
signal fired. Returns the post-cleanup state and the exit status. -/
def signal_handler (signum : Nat) (st : SysState) : SysState × Nat :=
  let _ := signum
  ((CleanupManager.cleanup st).1, 130)

/-- Result of a call wrapped by the `retry` decorator: the Python function
either returns a value, re-raises the last caught exception, or — when
`times = 0`, so the loop body never ran — executes `raise last_exception`
with `last_exception = None` (a `TypeError` in Python), modelled as
`raisedNone`. -/
inductive RetryOutcome (ε α : Type) where
  | success : α → RetryOutcome ε α
  | raised : ε → RetryOutcome ε α
  | raisedNone : RetryOutcome ε α
  deriving DecidableEq, Repr

/-- The `raise last_exception` statement after the loop of `retry`
(src line 336). -/
def retryRaiseLast {ε α : Type} : Option ε → RetryOutcome ε α
  | some e => RetryOutcome.raised e
  | none => RetryOutcome.raisedNone

/-- Loop body of the `retry` decorator (src lines 312-338). The wrapped
operation `f` is modelled per invocation number (1-based): it emits log
lines of its own and either returns a value or raises an exception of
type `ε`. `rem` counts the iterations of `for attempt in range(1, times+1)`
still to run; the caller maintains `rem = times + 1 - attempt`. On a
caught exception with `attempt < times` a warning and a retry notice are
logged (and the code sleeps `delay` seconds, not modelled); on the last
attempt an error is logged and the exception is re-raised unmodified. -/
def retryIter {ε α : Type} (f : Nat → List LogLine × Except ε α)
    (times delay : Nat) (errText : ε → String) :
    Nat → Nat → Option ε → RetryOutcome ε α × List LogLine
  | 0, _, last => (retryRaiseLast last, [])
  | rem + 1, attempt, _last =>
    let step := f attempt
    match step.2 with
    | Except.ok v => (RetryOutcome.success v, step.1)
    | Except.error e =>
      if attempt < times then
        let p := retryIter f times delay errText rem (attempt + 1) (some e)
        ( p.1,
          step.1 ++
            ⟨"WARNING", "⚠ 第 " ++ toString attempt ++ " 次尝试失败: " ++ errText e⟩ ::
            ⟨"INFO", "⏳ " ++ toString delay ++ " 秒后重试..."⟩ :: p.2 )
      else
        ( RetryOutcome.raised e,
          step.1 ++ [⟨"ERROR", "✗ 失败 " ++ toString times ++ " 次，放弃: " ++ errText e⟩] )

/-- The `retry(times, delay)` wrapper applied to an operation
(src lines 312-338): starts at attempt 1 with `times` loop iterations
remaining and no exception caught yet. -/
def retry {ε α : Type} (f : Nat → List LogLine × Except ε α)
    (times delay : Nat) (errText : ε → String) : RetryOutcome ε α × List LogLine :=
  retryIter f times delay errText times 1 none

/-- Number of warning lines among a list of log lines. -/
def warnCount (logs : List LogLine) : Nat :=
  (logs.filter (fun l => l.level == "WARNING")).length

/-- Python's regex class medium `\s` (whitespace). -/
def isPySpace (c : Char) : Bool :=
  c == ' ' || c == '\t' || c == '\n' || c == '\r' || c == '\x0b' || c == '\x0c'

/-- The character class medium `['\"]` of the masking regexes. -/
def isQuoteChar (c : Char) : Bool :=
  c == '\'' || c == '\"'

/-- Strips a literal off the front of a character list, returning the
remainder on success (regex literal matching). -/
def stripLit : List Char → List Char → Option (List Char)
  | [], s => some s
  | _ :: _, [] => none
  | c :: cs, d :: ds => if c == d then stripLit cs ds else none

/-- Greedy `.*` followed by a tail pattern, with backtracking: `.` matches
any character except a newline, and the longest extension of `.*` whose
remainder matches `tail` wins, as in Python's backtracking engine.
The result is (consumed text including the tail match, remainder). -/
def dotStarTail (tail : List Char → Option (List Char × List Char)) :
    List Char → Option (List Char × List Char)
  | [] => tail []
  | c :: cs =>
    match (if c == '\n' then none
           else (dotStarTail tail cs).map (fun r => (c :: r.1, r.2))) with
    | some r => some r
    | none => tail (c :: cs)

/-- Tail `chpasswd` of the first masking regex (a plain literal). -/
def chpasswdTail (s : List Char) : Option (List Char × List Char) :=
  (stripLit "chpasswd".toList s).map (fun rest => ("chpasswd".toList, rest))

/-- Tail `sudo\s+-S` of the second masking regex: the literal `sudo`, one
or more whitespace characters (greedy), then the literal `-S`. -/
def sudoSTail (s : List Char) : Option (List Char × List Char) :=
  match stripLit "sudo".toList s with
  | none => none
  | some s1 =>
    let ws := s1.takeWhile isPySpace
    let s2 := s1.dropWhile isPySpace
    if ws.isEmpty then none
    else
      match stripLit "-S".toList s2 with
      | none => none
      | some rest => some ("sudo".toList ++ ws ++ "-S".toList, rest)

/-- One anchored match of the first masking regex of `mask_sensitive_info`
(src line 347), `(echo\s+['\"])[^:]+:([^'\"]+)(['\"].*chpasswd)`, with its
replacement `\1***:***\3` already applied. Each `+`-quantified class here
excludes the character that must follow it, so greedy matching reduces to
taking the maximal run; `.*chpasswd` keeps full backtracking via
`dotStarTail`. Returns (replacement text, remainder after the match). -/
def chpasswdMatchAt (s : List Char) : Option (List Char × List Char) :=
  match stripLit "echo".toList s with
  | none => none
  | some s1 =>
    let ws := s1.takeWhile isPySpace
    let s2 := s1.dropWhile isPySpace
    if ws.isEmpty then none
    else
      match s2 with
      | [] => none
      | q :: s3 =>
        if !(isQuoteChar q) then none
        else
          let user := s3.takeWhile (fun c => !(c == ':'))
          let s4 := s3.dropWhile (fun c => !(c == ':'))
          if user.isEmpty then none
          else
            match s4 with
            | ':' :: s5 =>
              let pwd := s5.takeWhile (fun c => !(isQuoteChar c))
              let s6 := s5.dropWhile (fun c => !(isQuoteChar c))
              if pwd.isEmpty then none
              else
                match s6 with
                | [] => none
                | q2 :: s7 =>
                  match dotStarTail chpasswdTail s7 with
                  | none => none
                  | some (mid, rest) =>
                    some (("echo".toList ++ ws ++ [q]) ++ "***:***".toList ++
                          (q2 :: mid), rest)
            | _ => none

/-- One anchored match of the second masking regex of `mask_sensitive_info`
(src line 349), `(echo\s+['\"])([^'\"]+)(['\"].*sudo\s+-S)`, with its
replacement `\1***\3` already applied. -/
def sudoSMatchAt (s : List Char) : Option (List Char × List Char) :=
  match stripLit "echo".toList s with
  | none => none
  | some s1 =>
    let ws := s1.takeWhile isPySpace
    let s2 := s1.dropWhile isPySpace
    if ws.isEmpty then none
    else
      match s2 with
      | [] => none
      | q :: s3 =>
        if !(isQuoteChar q) then none
        else
          let pwd := s3.takeWhile (fun c => !(isQuoteChar c))
          let s4 := s3.dropWhile (fun c => !(isQuoteChar c))
          if pwd.isEmpty then none
          else
            match s4 with
            | [] => none
            | q2 :: s5 =>
              match dotStarTail sudoSTail s5 with
              | none => none
              | some (mid, rest) =>
                some (("echo".toList ++ ws ++ [q]) ++ "***".toList ++
                      (q2 :: mid), rest)

/-- Models `re.sub` driver: scan left to right; at each position try the anchored
match, replace it and continue after it, otherwise keep the character and
move one position right. Both masking patterns consume at least one
character per match, so fuel equal to the string length suffices. -/
def subScan (matchAt : List Char → Option (List Char × List Char)) :
    Nat → List Char → List Char
  | 0, s => s
  | _ + 1, [] => []
  | fuel + 1, c :: cs =>
    match matchAt (c :: cs) with
    | some (rep, rest) => rep ++ subScan matchAt fuel rest
    | none => c :: subScan matchAt fuel cs

/-- Models `mask_sensitive_info` (src lines 344-350): masks the password in
`echo 'user:password' | ... chpasswd` pipes, then the password in
`echo 'password' | ... sudo -S` pipes, by the two `re.sub` calls. -/
def mask_sensitive_info (cmd : String) : String :=
  let l1 := subScan chpasswdMatchAt cmd.toList.length cmd.toList
  let l2 := subScan sudoSMatchAt l1.length l1
  String.mk l2

/-- The value of a successful `subprocess.run` (src line 424): exit code
and captured output. -/
structure CompletedProcess where
  returncode : Nat
  stdout : String
  stderr : String
  deriving DecidableEq, Repr

/-- Models `subprocess.CalledProcessError` as raised by `subprocess.run` with
`check=True`: carries the executed command line and its exit status. -/
structure CommandError where
  cmd : String
  returncode : Nat
  deriving DecidableEq, Repr

/-- Models `str(e)` for a `CalledProcessError` (CPython's message format): note
that it embeds the executed command line verbatim. -/
def commandErrorText (e : CommandError) : String :=
  "Command \'" ++ e.cmd ++ "\' returned non-zero exit status " ++
    toString e.returncode ++ "."

/-- The command line actually passed to the shell by `run`
(src lines 421-422): wrapped in `su - user -c '...'` when a user is given. -/
def effectiveCmd (cmd : String) (user : Option String) : String :=
  match user with
  | some u => "su - " ++ u ++ " -c \'" ++ cmd ++ "\'"
  | none => cmd

/-- One un-retried invocation of `run` (src lines 402-424): logs the
(optionally masked) command at DEBUG level, builds the effective command,
consults the command executor `sys` (effective command line ↦ exit
status), and with `check` raises `CommandError` on a non-zero status.
Proxy environment injection has no observable effect in this model. -/
def runBody (sys : String → Nat) (cmd : String) (user : Option String)
    (check maskLog : Bool) : List LogLine × Except CommandError CompletedProcess :=
  let logCmd := if maskLog then mask_sensitive_info cmd else cmd
  let dbg : LogLine :=
    ⟨"DEBUG", "执行命令: " ++ logCmd ++
      (match user with | some u => " (用户: " ++ u ++ ")" | none => "")⟩
  let cmd2 := effectiveCmd cmd user
  let rc := sys cmd2
  if check && !(rc == 0) then ([dbg], Except.error ⟨cmd2, rc⟩)
  else ([dbg], Except.ok ⟨rc, "", ""⟩)

/-- Models `run` as decorated in the source: `@retry(times=3, delay=2)` applied
to `runBody` (src lines 402-424). -/
def run (sys : String → Nat) (cmd : String) (user : Option String)
    (check maskLog : Bool) : RetryOutcome CommandError CompletedProcess × List LogLine :=
  retry (fun _ => runBody sys cmd user check maskLog) 3 2 commandErrorText

/-- The shared `Context` dataclass (src lines 237-253): identity name,
credential, preferred shell, systemd flag and derived home directory.
`_get_home` shells out to `eval echo ~username`; throughout the model it
is an ambient pure function `getHome`. -/
structure Context where
  username : String
  password : String
  shell : String
  enable_systemd : Bool
  user_home : String
  deriving DecidableEq, Repr

/-- Models `Context.__post_init__` (src lines 246-248): the constructor resolves
`user_home` from `_get_home` only when a username was supplied, and leaves
it `""` otherwise. -/
def mkContext (getHome : String → String) (username password shell : String)
    (enable_systemd : Bool) : Context :=
  if username == "" then ⟨username, password, shell, enable_systemd, ""⟩
  else ⟨username, password, shell, enable_systemd, getHome username⟩

/-- Models `Context()` with all dataclass defaults, as constructed by
`App.__init__` (src line 988). -/
def defaultContext (getHome : String → String) : Context :=
  mkContext getHome "" "" "/bin/zsh" true

/-- One task as known to the registry: key, `_order`, display `name` and
the `needs_user` flag of its `Feature` class. -/
structure FeatureInfo where
  key : String
  order : Nat
  name : String
  needs_user : Bool
  deriving DecidableEq, Repr

/-- Python dict assignment `d[k] = v`: an existing key keeps its insertion
position and gets the new value, a fresh key is appended. -/
def dictSet {α : Type} (d : List (String × α)) (k : String) (v : α) :
    List (String × α) :=
  if d.any (fun p => p.1 == k) then
    d.map (fun p => if p.1 == k then (k, v) else p)
  else d ++ [(k, v)]

/-- Python dict lookup `d.get(k)`. -/
def dictGet {α : Type} (d : List (String × α)) (k : String) : Option α :=
  (d.find? (fun p => p.1 == k)).map (fun p => p.2)

/-- Models `Registry.register` (src lines 511-519): the decorator stores the
feature class in the `_features` dict under its key (silently overwriting
any previous binding, since it is a plain dict assignment). -/
def Registry.register {α : Type} (features : List (String × α)) (key : String)
    (cls : α) : List (String × α) :=
  dictSet features key cls

/-- Models `Registry.get` (src lines 521-523). -/
def Registry.get {α : Type} (features : List (String × α)) (key : String) :
    Option α :=
  dictGet features key

/-- The `_features` dict after the twelve `@Registry.register(...)`
decorators of the source have run, in their top-to-bottom order
(src lines 533-951). All keys are distinct, so dict insertion order is
exactly this list. -/
def registryFeatures : List FeatureInfo :=
  [ ⟨"mirrors", 5, "配置镜像源", false⟩,
    ⟨"update", 10, "系统更新", false⟩,
    ⟨"base", 11, "安装基础包", false⟩,
    ⟨"optional", 12, "安装可选包", false⟩,
    ⟨"user", 20, "创建用户", true⟩,
    ⟨"wsl", 21, "配置 WSL", true⟩,
    ⟨"omz", 30, "安装 Oh My Zsh", true⟩,
    ⟨"zsh-plugins", 31, "安装 Zsh 插件", true⟩,
    ⟨"zshrc", 32, "配置 .zshrc", true⟩,
    ⟨"yay", 40, "安装 Yay", true⟩,
    ⟨"conda", 41, "安装 Miniconda", true⟩,
    ⟨"github", 50, "配置 GitHub", true⟩ ]

/-- The registry as a key ↦ feature dict, i.e. `Registry._features`. -/
def registryDict : List (String × FeatureInfo) :=
  registryFeatures.map (fun f => (f.key, f))

/-- Models `sorted(features.items(), key=lambda x: x[1]._order)` (src line 1013).
Python's sort is stable; the registry has pairwise distinct orders, so any
by-order sort yields the same list. -/
def sortedFeatures : List FeatureInfo :=
  List.insertionSort (fun a b => a.order ≤ b.order) registryFeatures

/-- Keys in registration (dict) order, i.e. `list(features.keys())`. -/
def registryKeys : List String :=
  registryFeatures.map (fun f => f.key)

/-- Keys in the order the menu displays them (sorted by `_order`). -/
def sortedFeatureKeys : List String :=
  sortedFeatures.map (fun f => f.key)

/-- Python `str.strip()` on a character list. -/
def pyStrip (s : List Char) : List Char :=
  ((s.dropWhile isPySpace).reverse.dropWhile isPySpace).reverse

/-- Value of a nonempty all-digit character list. -/
def digitsVal (ds : List Char) : Int :=
  Int.ofNat (ds.foldl (fun acc c => acc * 10 + (c.toNat - '0'.toNat)) 0)

/-- Python `int(s)` on menu input: optional sign, then decimal digits,
surrounded by optional whitespace; anything else raises `ValueError`
(modelled as `none`). Underscore digit grouping and non-ASCII digits,
which CPython also accepts, are not modelled — no claim touches them. -/
def pyParseInt (s : List Char) : Option Int :=
  match pyStrip s with
  | '-' :: ds =>
    if !ds.isEmpty && ds.all (fun c => c.isDigit) then some (-(digitsVal ds)) else none
  | '+' :: ds =>
    if !ds.isEmpty && ds.all (fun c => c.isDigit) then some (digitsVal ds) else none
  | ds =>
    if !ds.isEmpty && ds.all (fun c => c.isDigit) then some (digitsVal ds) else none

/-- Python list subscription `l[i]`: non-negative indices from the front,
negative indices from the back, `IndexError` (`none`) out of range. -/
def pyIndex {α : Type} (l : List α) (i : Int) : Option α :=
  if 0 ≤ i then l.get? i.toNat
  else if (-i).toNat ≤ l.length then l.get? (l.length - (-i).toNat)
  else none

/-- Python `s.split(sep)` for a single-character separator. -/
def splitOnChar (sep : Char) : List Char → List (List Char)
  | [] => [[]]
  | c :: cs =>
    let r := splitOnChar sep cs
    if c == sep then [] :: r
    else
      match r with
      | [] => [[c]]
      | h :: t => (c :: h) :: t

/-- Python `range(s, e + 1)` over integers. -/
def intRange (s e : Int) : List Int :=
  (List.range (e + 1 - s).toNat).map (fun j => s + j)

/-- The range branch of the menu parser (src line 1034):
`[sorted_features[i-1][0] for i in range(start, end+1)]`. One
out-of-range subscript (`IndexError`) rejects the whole input. -/
def rangeSelect (keys : List String) (s e : Int) : Option (List String) :=
  (intRange s e).mapM (fun i => pyIndex keys (i - 1))

/-- The per-part loop of the menu parser (src lines 1030-1037): each
comma-separated part is stripped and is either an inclusive range
`a-b` or a single 1-based index; any parse failure or out-of-range
subscript rejects the whole input (the surrounding `try` catches it). -/
def menuParseParts (keys : List String) : List (List Char) → Option (List String)
  | [] => some []
  | p :: rest =>
    let part := pyStrip p
    let cur : Option (List String) :=
      if part.contains '-' then
        match splitOnChar '-' part with
        | [a, b] =>
          match pyParseInt a, pyParseInt b with
          | some s, some e => rangeSelect keys s e
          | _, _ => none
        | _ => none
      else
        match pyParseInt part with
        | some i => (pyIndex keys (i - 1)).map (fun k => [k])
        | none => none
    match cur, menuParseParts keys rest with
    | some l1, some l2 => some (l1 ++ l2)
    | _, _ => none

/-- One iteration of the `while True` input loop of `App._menu`
(src lines 1023-1042): the stripped, upper-cased choice is either `A`
(all registered keys, in dict order), or a comma list of indices and
ranges (full-width commas normalised first); `none` means the iteration
ends in the `输入无效` retry prompt. An accepted selection must be
nonempty (`if selected`). -/
def App.menuChoice (sortedKeys allKeys : List String) (raw : String) :
    Option (List String) :=
  let choice := (pyStrip raw.toList).map Char.toUpper
  if choice == "A".toList then some allKeys
  else
    let parts := splitOnChar ',' (choice.map (fun c => if c == '，' then ',' else c))
    match menuParseParts sortedKeys parts with
    | none => none
    | some sel => if sel.isEmpty then none else some sel

/-- Result of one call of a task's `execute` (src line 469): the Python
method either returns a value (`None`, or the string `"skipped"`), or
raises an exception whose `str` is recorded. -/
inductive ExecR where
  | ret : Option String → ExecR
  | exc : String → ExecR
  deriving DecidableEq, Repr

/-- One record of the `TaskTracker` (src lines 175-182). The recorded
wall-clock duration is not modelled. -/
structure TrackRecord where
  name : String
  status : TaskStatus
  message : String
  deriving DecidableEq, Repr

/-- The record `Feature.run_with_tracking` appends for one execution
result (src lines 468-479): `Skipped` exactly when the return value is
the string `"skipped"`, `Success` for any other return, and `Failed`
carrying `str(e)[:50]` when the execute raised. -/
def trackRecordOf (nm : String) (r : ExecR) : TrackRecord :=
  match r with
  | ExecR.ret v =>
    ⟨nm, if v == some "skipped" then TaskStatus.skipped else TaskStatus.success, ""⟩
  | ExecR.exc m => ⟨nm, TaskStatus.failed, m.take 50⟩

/-- Models `Feature.run_with_tracking` (src lines 463-480): appends exactly one
tracker record and, when execute raised, re-raises the same exception
(returned as `some` of the unchanged exception text). -/
def Feature.run_with_tracking (nm : String) (r : ExecR)
    (tracker : List TrackRecord) : List TrackRecord × Option String :=
  (tracker ++ [trackRecordOf nm r],
   match r with
   | ExecR.exc m => some m
   | ExecR.ret _ => none)

/-- Models `App._execute` resolution step (src line 1100): look every selected
key up in the registry. Keys accepted by the menu are always present; a
missing key would make the Python loop raise inside its `try`. -/
def App.resolveSelection (sel : List String) : List FeatureInfo :=
  sel.filterMap (fun k => Registry.get registryDict k)

/-- Models `features.sort(key=lambda x: x[1]._order)` (src line 1101). -/
def App.sortSelection (ts : List FeatureInfo) : List FeatureInfo :=
  List.insertionSort (fun a b => a.order ≤ b.order) ts

/-- The tasks that actually get executed out of a sorted plan: execution
stops after a raising task if the operator answers no to `继续?`
(src lines 1103-1110). `outcome` gives each task's execute result,
`cont` the operator's continue decision after a failure. -/
def executedPrefix (outcome : FeatureInfo → ExecR) (cont : FeatureInfo → Bool) :
    List FeatureInfo → List FeatureInfo
  | [] => []
  | t :: rest =>
    match outcome t with
    | ExecR.ret _ => t :: executedPrefix outcome cont rest
    | ExecR.exc _ =>
      if cont t then t :: executedPrefix outcome cont rest else [t]

/-- The execution loop of `App._execute` (src lines 1103-1110): each task
runs under tracking; a raised failure is caught, and the loop breaks
unless the operator chooses to continue. -/
def App.execute (outcome : FeatureInfo → ExecR) (cont : FeatureInfo → Bool) :
    List FeatureInfo → List TrackRecord → List TrackRecord
  | [], tr => tr
  | t :: rest, tr =>
    let p := Feature.run_with_tracking t.name (outcome t) tr
    match p.2 with
    | none => App.execute outcome cont rest p.1
    | some _ => if cont t then App.execute outcome cont rest p.1 else p.1

/-- Models `App._collect_data` (src lines 1044-1093), modelled on the accepted
terminal inputs of its prompt loops: `u` is the finally accepted username
(the loop guarantees it nonempty; when it names an existing user the
operator confirmed reuse), `pwd` the confirmed password, `shellChoice`
the shell answer after its `or "2"` default, `systemdAns` the systemd
answer. Mirrors the source's statement order: an existing user's home is
resolved immediately; any username with a still-empty home is resolved at
the end. -/
def App.collect_data (getHome : String → String) (selected : List String)
    (u : String) (u_exists : Bool) (pwd : String) (shellChoice : String)
    (systemdAns : Bool) (ctx : Context) : Context :=
  let needs_user := selected.any
    (fun k => ((Registry.get registryDict k).map (fun f => f.needs_user)).getD false)
  if !needs_user then ctx
  else
    let ctx1 :=
      if u_exists then { ctx with username := u, user_home := getHome u }
      else { ctx with username := u }
    let ctx2 :=
      if selected.contains "user" || selected.contains "yay" then
        { ctx1 with password := pwd }
      else ctx1
    let ctx3 :=
      if selected.contains "user" && !u_exists then
        { ctx2 with shell := if shellChoice == "2" then "/bin/zsh" else "/bin/bash" }
      else ctx2
    let ctx4 :=
      if selected.contains "wsl" then { ctx3 with enable_systemd := systemdAns }
      else ctx3
    if !(ctx4.username == "") && ctx4.user_home == "" then
      { ctx4 with user_home := getHome ctx4.username }
    else ctx4

/-- Configuration the mirrors task reads (`ENABLE_CHINA_MIRRORS`,
`CHINA_MIRRORS` from the YAML config). -/
structure MirrorsCfg where
  enable_china_mirrors : Bool
  china_mirrors : List String
  deriving DecidableEq, Repr

/-- Filesystem state the mirrors task touches: the contents of
`/etc/pacman.d/mirrorlist` and of its `.backup`, `none` when the file
does not exist. -/
structure MirrorsState where
  mirrorlist : Option String
  backup : Option String
  deriving DecidableEq, Repr

/-- Python `s.split(sep)` on strings, single-character separator. -/
def pySplitS (sep : Char) (s : String) : List String :=
  (splitOnChar sep s.toList).map String.mk

/-- Host component of a mirror URL, `mirror.split('/')[2]` (src line
560): `none` models the `IndexError` the subscript raises when the URL
has fewer than three `/`-separated parts. -/
def mirrorHost (mirror : String) : Option String :=
  (pySplitS '/' mirror).get? 2

/-- One numbered mirror block of the generated mirrorlist, given the
already-extracted host part (src lines 560-561). -/
def mirrorBlock (i : Nat) (host mirror : String) : String :=
  "## " ++ toString i ++ ". " ++ host ++ "\n" ++
    "Server = " ++ mirror ++ "\n\n"

/-- The full generated mirrorlist text (src lines 556-561): `none` when
any configured mirror URL makes `mirror.split('/')[2]` raise
`IndexError` — the building loop aborts at the first failing URL, the
partially built local string is discarded, and the exception propagates
out of `execute`. -/
def mirrorsContent (mirrors : List String) : Option String :=
  (mirrors.enum.mapM
    (fun p => (mirrorHost p.2).map (fun h => mirrorBlock (p.1 + 1) h p.2))).map
    (fun blocks =>
      "##\n## Arch Linux 中国镜像源\n## 由 arch_wsl_setup.py 自动生成\n##\n\n" ++
        String.join blocks)

/-- Models `ConfigureMirrors.execute` (src lines 537-571): skipped when china
mirrors are disabled; otherwise back the original mirrorlist up (only if
no backup exists yet and the mirrorlist file exists), then build the new
content — a malformed mirror URL raises `IndexError` here, after the
backup side effect but before the mirrorlist write — and on success
overwrite the mirrorlist and return `None` (Success). -/
def ConfigureMirrors.execute (cfg : MirrorsCfg) (st : MirrorsState) :
    ExecR × MirrorsState :=
  if !cfg.enable_china_mirrors then (ExecR.ret (some "skipped"), st)
  else
    let st1 :=
      if st.backup == none && !(st.mirrorlist == none) then
        { st with backup := st.mirrorlist }
      else st
    match mirrorsContent cfg.china_mirrors with
    | none => (ExecR.exc "list index out of range", st1)
    | some content => (ExecR.ret none, { st1 with mirrorlist := some content })

/-- The text `ConfigureWSL.execute` writes to `/etc/wsl.conf`
(src line 699), including `str(bool).lower()`. -/
def wslConfContent (ctx : Context) : String :=
  "[user]\ndefault=" ++ ctx.username ++ "\n\n[boot]\nsystemd=" ++
    (if ctx.enable_systemd then "true" else "false") ++ "\n"

/-- Models `ConfigureWSL.execute` (src lines 696-705): unconditionally overwrites
the WSL config file and returns `None` (Success) — it has no
already-configured check. The state is the file's contents. -/
def ConfigureWSL.execute (ctx : Context) (wslConf : Option String) :
    ExecR × Option String :=
  let _ := wslConf
  (ExecR.ret none, some (wslConfContent ctx))

/-- Models `pat.isPrefixOf s` over `BEq`, written out so it computes by `decide`. -/
def listStartsWith {α : Type} [BEq α] : List α → List α → Bool
  | [], _ => true
  | _ :: _, [] => false
  | c :: cs, d :: ds => c == d && listStartsWith cs ds

/-- Boolean infix test (Python's `sub in s`). -/
def listHasInfix {α : Type} [BEq α] (pat : List α) : List α → Bool
  | [] => pat.isEmpty
  | s@(_ :: rest) => listStartsWith pat s || listHasInfix pat rest

/-- Python `sub in s` on strings. -/
def strContains (pat s : String) : Bool :=
  listHasInfix pat.toList s.toList

/-- Python `str.replace` (all leftmost non-overlapping occurrences) over
lists; fuel bounds the scan (the string's length suffices for a nonempty
pattern). -/
def replaceScan {α : Type} [BEq α] (pat rep : List α) : Nat → List α → List α
  | 0, s => s
  | _ + 1, [] => []
  | fuel + 1, c :: cs =>
    if listStartsWith pat (c :: cs) then
      rep ++ replaceScan pat rep fuel (List.drop (pat.length - 1) cs)
    else c :: replaceScan pat rep fuel cs

/-- Python `s.replace(pat, rep)` on strings (nonempty `pat`). -/
def pyReplaceStr (s pat rep : String) : String :=
  String.mk (replaceScan pat.toList rep.toList s.toList.length s.toList)

/-- Host state the user-creation task touches: existing user names, the
password table written by `chpasswd`, and the sudoers file text. -/
structure UserSysState where
  users : List String
  shadow : List (String × String)
  sudoers : String
  deriving DecidableEq, Repr

/-- The wheel line `CreateUser.execute` enables in sudoers. -/
def wheelLine : String := "%wheel ALL=(ALL:ALL) ALL"

/-- The commented form of the wheel line. -/
def wheelLineCommented : String := "# %wheel ALL=(ALL:ALL) ALL"

/-- Models `CreateUser.execute` (src lines 668-688): skipped when the user
already exists (`user_exists`, an `id` lookup — membership in `users`
here); otherwise `useradd`, `chpasswd`, then enable the wheel group in
sudoers (uncomment the commented line, or append the line when absent). -/
def CreateUser.execute (ctx : Context) (st : UserSysState) :
    ExecR × UserSysState :=
  if st.users.contains ctx.username then (ExecR.ret (some "skipped"), st)
  else
    let users2 := st.users ++ [ctx.username]
    let shadow2 := st.shadow ++ [(ctx.username, ctx.password)]
    let content := st.sudoers
    let content2 :=
      if strContains wheelLineCommented content then
        pyReplaceStr content wheelLineCommented wheelLine
      else if !(strContains wheelLine content) then
        content ++ "\n" ++ wheelLine ++ "\n"
      else content
    (ExecR.ret none, ⟨users2, shadow2, content2⟩)

/-- Instances making sortedness of the by-order sort available. -/
instance : IsTotal FeatureInfo (fun a b => a.order ≤ b.order) :=
  ⟨fun a b => Nat.le_total a.order b.order⟩

instance : IsTrans FeatureInfo (fun a b => a.order ≤ b.order) :=
  ⟨fun _ _ _ h1 h2 => Nat.le_trans h1 h2⟩

theorem warnCount_nil : warnCount [] = 0 := rfl

theorem warnCount_cons (l : LogLine) (ls : List LogLine) :
    warnCount (l :: ls) =
      (if l.level == "WARNING" then 1 else 0) + warnCount ls := by
  by_cases h : (l.level == "WARNING") = true
  · simp [warnCount, List.filter_cons, h, Nat.add_comm]
  · simp [warnCount, List.filter_cons, h]

theorem warnCount_append (xs ys : List LogLine) :
    warnCount (xs ++ ys) = warnCount xs + warnCount ys := by
  simp [warnCount, List.filter_append]

theorem retryIter_success {ε α : Type} (f : Nat → List LogLine × Except ε α)
    (times delay : Nat) (errText : ε → String) (err : Nat → ε) (v : α) :
    ∀ (j a : Nat) (last : Option ε),
      (∀ i, a ≤ i → i < a + j → f i = ([], Except.error (err i))) →
      f (a + j) = ([], Except.ok v) →
      a + j ≤ times →
      (retryIter f times delay errText (times + 1 - a) a last).1 =
        RetryOutcome.success v ∧
      warnCount (retryIter f times delay errText (times + 1 - a) a last).2 = j := by
  intro j
  induction j with
  | zero =>
    intro a last _hfail hsucc hle
    have hrem : times + 1 - a = (times - a) + 1 := by omega
    rw [hrem]
    rw [Nat.add_zero] at hsucc
    simp [retryIter, hsucc, warnCount_nil]
  | succ j ih =>
    intro a last hfail hsucc hle
    have hfa : f a = ([], Except.error (err a)) := hfail a le_rfl (by omega)
    have halt : a < times := by omega
    have hrem : times + 1 - a = (times - a) + 1 := by omega
    have hrem2 : times - a = times + 1 - (a + 1) := by omega
    rw [hrem]
    have ihx := ih (a + 1) (some (err a))
      (fun i h1 h2 => hfail i (by omega) (by omega))
      (by rw [show a + 1 + j = a + (j + 1) by omega]; exact hsucc)
      (by omega)
    rw [hrem2]
    simp only [retryIter, hfa, if_pos halt]
    refine ⟨ihx.1, ?_⟩
    rw [List.nil_append, warnCount_cons, warnCount_cons, ihx.2]
    simp
    omega

theorem retryIter_failure {ε α : Type} (f : Nat → List LogLine × Except ε α)
    (times delay : Nat) (errText : ε → String) (err : Nat → ε)
    (hfail : ∀ i, 1 ≤ i → i ≤ times → f i = ([], Except.error (err i))) :
    ∀ (rem a : Nat) (last : Option ε),
      a + rem = times + 1 → 1 ≤ a → a ≤ times →
      (retryIter f times delay errText rem a last).1 =
        RetryOutcome.raised (err times) ∧
      warnCount (retryIter f times delay errText rem a last).2 = times - a := by
  intro rem
  induction rem with
  | zero => intro a last h1 _h2 h3; exfalso; omega
  | succ r ih =>
    intro a last h1 h2 h3
    have hfa : f a = ([], Except.error (err a)) := hfail a h2 h3
    by_cases hlt : a < times
    · have ihx := ih (a + 1) (some (err a)) (by omega) (by omega) (by omega)
      simp only [retryIter, hfa, if_pos hlt]
      refine ⟨ihx.1, ?_⟩
      rw [List.nil_append, warnCount_cons, warnCount_cons, ihx.2]
      simp
      omega
    · have ha : a = times := by omega
      subst ha
      simp [retryIter, hfa, if_neg hlt, warnCount_cons, warnCount_nil]

/-- C2: the retry policy with `N` attempts around a stub operation that
fails transiently on exactly its first `k` invocations (with exception
values `err 1, …, err k`, logging nothing of its own) and succeeds with
`v` on invocation `k+1`: when `N ≥ k+1` the wrapped call returns the
success value and the wrapper logs exactly `k` warnings; when
`1 ≤ N ≤ k` the wrapped call re-raises exactly the failure of its last
attempt, `err N`, with its content unchanged (and has logged `N - 1`
warnings plus one final error). -/
theorem c2_retry_policy {ε α : Type} (f : Nat → List LogLine × Except ε α)
    (k N delay : Nat) (errText : ε → String) (err : Nat → ε) (v : α)
    (hfail : ∀ i, 1 ≤ i → i ≤ k → f i = ([], Except.error (err i)))
    (hsucc : f (k + 1) = ([], Except.ok v)) :
    (k + 1 ≤ N →
      (retry f N delay errText).1 = RetryOutcome.success v ∧
      warnCount (retry f N delay errText).2 = k) ∧
    (1 ≤ N → N ≤ k →
      (retry f N delay errText).1 = RetryOutcome.raised (err N) ∧
      warnCount (retry f N delay errText).2 = N - 1) := by
  constructor
  · intro hN
    have h := retryIter_success f N delay errText err v k 1 none
      (fun i h1 h2 => hfail i h1 (by omega))
      (by rw [show 1 + k = k + 1 by omega]; exact hsucc)
      (by omega)
    rw [show N + 1 - 1 = N by omega] at h
    exact h
  · intro h1 hN
    have h := retryIter_failure f N delay errText err
      (fun i hi1 hi2 => hfail i hi1 (by omega)) N 1 none (by omega) le_rfl h1
    exact h

/-- Witness for C2 at a concrete stub failing exactly twice: with 3
attempts the call succeeds with 42 after 2 warnings; with 2 attempts it
re-raises the second failure unchanged after 1 warning. -/
theorem c2_retry_policy_witness :
    ((retry (fun i => ([], if i ≤ 2 then Except.error (toString i)
        else Except.ok (42 : Nat))) 3 2 (fun s => s)).1 =
      RetryOutcome.success 42 ∧
     warnCount (retry (fun i => ([], if i ≤ 2 then Except.error (toString i)
        else Except.ok (42 : Nat))) 3 2 (fun s => s)).2 = 2) ∧
    ((retry (fun i => ([], if i ≤ 2 then Except.error (toString i)
        else Except.ok (42 : Nat))) 2 2 (fun s => s)).1 =
      RetryOutcome.raised (toString 2) ∧
     warnCount (retry (fun i => ([], if i ≤ 2 then Except.error (toString i)
        else Except.ok (42 : Nat))) 2 2 (fun s => s)).2 = 1) := by
  have hfail : ∀ i, 1 ≤ i → i ≤ 2 →
      (fun i => (([] : List LogLine), if i ≤ 2 then Except.error (toString i)
        else Except.ok (42 : Nat))) i = ([], Except.error (toString i)) := by
    intro i _ h2
    simp [h2]
  have hsucc : (fun i => (([] : List LogLine), if i ≤ 2 then Except.error (toString i)
      else Except.ok (42 : Nat))) (2 + 1) = ([], Except.ok 42) := by
    norm_num
  have h3 := c2_retry_policy _ 2 3 2 (fun s => s) toString 42 hfail hsucc
  have h2 := c2_retry_policy _ 2 2 2 (fun s => s) toString 42 hfail hsucc
  exact ⟨h3.1 (by omega), h2.2 (by omega) (by omega)⟩

/-- C1 counterexample: SIGTERM also cancels the run (it is bound to the
same handler), but the handler exits with the hard-coded status 130,
which is not 128 + 15 = 143 — the claim's "128 plus the signal number
for every signal that cancels the run" fails at SIGTERM. -/
theorem c1_sigterm_exit_code_counterexample :
    (signal_handler 15 ⟨[⟨"/home/u/tmp_yay", "dir", some "u", "Yay 构建目录"⟩],
      ["/home/u/tmp_yay"]⟩).2 = 130 ∧
    ¬ ((signal_handler 15 ⟨[⟨"/home/u/tmp_yay", "dir", some "u", "Yay 构建目录"⟩],
      ["/home/u/tmp_yay"]⟩).2 = 128 + 15) := by
  constructor
  · rfl
  · decide

/-- C1 (amended): on an operator-requested interrupt the handler runs the
Cleanup Ledger's cleanup synchronously before terminating — afterwards
the ledger is empty and every registered artifact still on disk has been
deleted — and the process exits with the fixed status 130 = 128 + SIGINT
regardless of which cancelling signal (SIGINT = 2 or SIGTERM = 15)
fired; the exit status therefore equals 128 plus the signal number only
for SIGINT. -/
theorem c1_signal_cleanup_then_fixed_exit (signum : Nat) (st : SysState) :
    (signal_handler signum st).1.items = [] ∧
    (signal_handler signum st).1.disk =
      st.disk.filter (fun p => !(st.items.any (fun it => it.path == p))) ∧
    (signal_handler signum st).2 = 130 ∧
    (signal_handler 2 st).2 = 128 + 2 := by
  exact ⟨rfl, rfl, rfl, rfl⟩

/-- C3: after `register(A)`, `register(B)`, `unregister(A)` (the inline
entry-removal pattern) with distinct paths, the ledger holds exactly B's
entry; `cleanup()` then deletes exactly B's artifact when it still exists
on disk (and nothing otherwise) and leaves the ledger empty, while
`clear()` after the same registrations empties the ledger without
touching the disk. -/
theorem c3_ledger_register_unregister (a b : CleanupItem) (disk : List String)
    (hab : a.path ≠ b.path) :
    (CleanupManager.unregister (CleanupManager.register
      (CleanupManager.register ⟨[], disk⟩ a.path a.itemType a.user a.description)
      b.path b.itemType b.user b.description) a.path).items = [b] ∧
    (CleanupManager.cleanup (CleanupManager.unregister (CleanupManager.register
      (CleanupManager.register ⟨[], disk⟩ a.path a.itemType a.user a.description)
      b.path b.itemType b.user b.description) a.path)).2 =
      (if disk.contains b.path then [b.path] else []) ∧
    (CleanupManager.cleanup (CleanupManager.unregister (CleanupManager.register
      (CleanupManager.register ⟨[], disk⟩ a.path a.itemType a.user a.description)
      b.path b.itemType b.user b.description) a.path)).1.items = [] ∧
    (CleanupManager.cleanup (CleanupManager.unregister (CleanupManager.register
      (CleanupManager.register ⟨[], disk⟩ a.path a.itemType a.user a.description)
      b.path b.itemType b.user b.description) a.path)).1.disk =
      disk.filter (fun p => !(b.path == p)) ∧
    CleanupManager.clear (CleanupManager.register
      (CleanupManager.register ⟨[], disk⟩ a.path a.itemType a.user a.description)
      b.path b.itemType b.user b.description) = ⟨[], disk⟩ := by
  have hba : (b.path == a.path) = false :=
    beq_eq_false_iff_ne.mpr (fun h => hab h.symm)
  have haa : (a.path == a.path) = true := beq_self_eq_true a.path
  have hstate : CleanupManager.unregister (CleanupManager.register
      (CleanupManager.register ⟨[], disk⟩ a.path a.itemType a.user a.description)
      b.path b.itemType b.user b.description) a.path = ⟨[b], disk⟩ := by
    simp [CleanupManager.register, CleanupManager.unregister, List.filter, hba, haa]
  rw [hstate]
  refine ⟨rfl, ?_, rfl, ?_, rfl⟩
  · simp [CleanupManager.cleanup, List.filter_cons,
      apply_ite (List.map (fun it : CleanupItem => it.path))]
  · simp [CleanupManager.cleanup]

/-- Witness for C3 at concrete entries and disk: A is a temp file, B the
half-installed Miniconda directory, both present on disk. -/
theorem c3_ledger_register_unregister_witness :
    (CleanupManager.unregister (CleanupManager.register
      (CleanupManager.register ⟨[], ["/tmp/a", "/home/u/miniconda3"]⟩
        "/tmp/a" "file" none "")
      "/home/u/miniconda3" "dir" (some "u") "Miniconda 目录") "/tmp/a").items =
      [⟨"/home/u/miniconda3", "dir", some "u", "Miniconda 目录"⟩] ∧
    (CleanupManager.cleanup (CleanupManager.unregister (CleanupManager.register
      (CleanupManager.register ⟨[], ["/tmp/a", "/home/u/miniconda3"]⟩
        "/tmp/a" "file" none "")
      "/home/u/miniconda3" "dir" (some "u") "Miniconda 目录") "/tmp/a")).2 =
      (if (["/tmp/a", "/home/u/miniconda3"] : List String).contains
          "/home/u/miniconda3" then ["/home/u/miniconda3"] else []) ∧
    (CleanupManager.cleanup (CleanupManager.unregister (CleanupManager.register
      (CleanupManager.register ⟨[], ["/tmp/a", "/home/u/miniconda3"]⟩
        "/tmp/a" "file" none "")
      "/home/u/miniconda3" "dir" (some "u") "Miniconda 目录") "/tmp/a")).1.items = [] ∧
    (CleanupManager.cleanup (CleanupManager.unregister (CleanupManager.register
      (CleanupManager.register ⟨[], ["/tmp/a", "/home/u/miniconda3"]⟩
        "/tmp/a" "file" none "")
      "/home/u/miniconda3" "dir" (some "u") "Miniconda 目录") "/tmp/a")).1.disk =
      (["/tmp/a", "/home/u/miniconda3"] : List String).filter
        (fun p => !("/home/u/miniconda3" == p)) ∧
    CleanupManager.clear (CleanupManager.register
      (CleanupManager.register ⟨[], ["/tmp/a", "/home/u/miniconda3"]⟩
        "/tmp/a" "file" none "")
      "/home/u/miniconda3" "dir" (some "u") "Miniconda 目录") =
      ⟨[], ["/tmp/a", "/home/u/miniconda3"]⟩ :=
  c3_ledger_register_unregister
    ⟨"/tmp/a", "file", none, ""⟩
    ⟨"/home/u/miniconda3", "dir", some "u", "Miniconda 目录"⟩
    ["/tmp/a", "/home/u/miniconda3"] (by decide)

/-- C6: evaluation of the menu parser over the program's 12-task registry:
`"1,3-4"` selects exactly the tasks at 1-based display positions 1, 3, 4
in that order; `"A"` selects every registered key, and that sequence
already is the order-sorted sequence; the malformed `"x"` and the
too-large index `"15"` are rejected (ending the iteration in the retry
prompt); but `"0"` is NOT rejected — `int("0") - 1 = -1` hits Python's
negative indexing and the input is silently coerced into selecting the
last displayed task, `github`, which is the divergence of this claim. -/
theorem c6_menu_selection_claims :
    App.menuChoice sortedFeatureKeys registryKeys "1,3-4" =
      some ["mirrors", "base", "optional"] ∧
    App.menuChoice sortedFeatureKeys registryKeys "A" = some registryKeys ∧
    registryKeys = sortedFeatureKeys ∧
    App.menuChoice sortedFeatureKeys registryKeys "x" = none ∧
    App.menuChoice sortedFeatureKeys registryKeys "15" = none ∧
    App.menuChoice sortedFeatureKeys registryKeys "0" = some ["github"] := by
  exact ⟨by decide, by decide, by decide, by decide, by decide, by decide⟩

/-- C7 counterexample: the accepted input `"1,1"` produces the selection
`["mirrors", "mirrors"]`, and the plan the orchestrator executes from it
contains the key `mirrors` twice — selections are not de-duplicated. -/
theorem c7_duplicate_selection_counterexample :
    App.menuChoice sortedFeatureKeys registryKeys "1,1" =
      some ["mirrors", "mirrors"] ∧
    (App.sortSelection (App.resolveSelection ["mirrors", "mirrors"])).map
      (fun f => f.key) = ["mirrors", "mirrors"] ∧
    ¬ ((App.sortSelection (App.resolveSelection ["mirrors", "mirrors"])).map
      (fun f => f.key)).Nodup := by
  exact ⟨by decide, by decide, by decide⟩

/-- C7 (amended): the menu does not de-duplicate numeric selections — a
repeated index reaches the orchestrator once per occurrence (see the
counterexample) — but the `"A"` selection enumerates every registered
key exactly once, so only for it is the executed sequence duplicate-free. -/
theorem c7_dedup_only_for_all_selection :
    App.menuChoice sortedFeatureKeys registryKeys "A" = some registryKeys ∧
    registryKeys.Nodup ∧
    ((App.sortSelection (App.resolveSelection registryKeys)).map
      (fun f => f.key)).Nodup := by
  exact ⟨by decide, by decide, by decide⟩

theorem App.execute_eq (outcome : FeatureInfo → ExecR) (cont : FeatureInfo → Bool) :
    ∀ (ts : List FeatureInfo) (tr : List TrackRecord),
      App.execute outcome cont ts tr =
        tr ++ (executedPrefix outcome cont ts).map
          (fun t => trackRecordOf t.name (outcome t)) := by
  intro ts
  induction ts with
  | nil => intro tr; simp [App.execute, executedPrefix]
  | cons t rest ih =>
    intro tr
    cases h : outcome t with
    | ret v =>
      simp [App.execute, executedPrefix, Feature.run_with_tracking, h, ih,
        List.append_assoc]
    | exc m =>
      by_cases hc : cont t = true
      · simp [App.execute, executedPrefix, Feature.run_with_tracking, h, hc, ih,
          List.append_assoc]
      · simp [App.execute, executedPrefix, Feature.run_with_tracking, h, hc]

/-- C8: the orchestrator's plan is the selection sorted by ascending
order key and is executed sequentially: the tracker receives exactly one
record per executed task (the executed tasks being the sorted plan up to
and including the first failure the operator does not continue past),
and the tracking wrapper classifies a `"skipped"` return as Skipped, any
other return as Success, and a raised failure as Failed with the
failure text truncated to 50 characters, after which the same failure
text is re-raised to the caller. -/
theorem c8_orchestrator_tracking (ts : List FeatureInfo)
    (outcome : FeatureInfo → ExecR) (cont : FeatureInfo → Bool) :
    (App.sortSelection ts).Sorted (fun a b => a.order ≤ b.order) ∧
    App.execute outcome cont (App.sortSelection ts) [] =
      (executedPrefix outcome cont (App.sortSelection ts)).map
        (fun t => trackRecordOf t.name (outcome t)) ∧
    (∀ nm v tr, Feature.run_with_tracking nm (ExecR.ret v) tr =
      (tr ++ [⟨nm, if v == some "skipped" then TaskStatus.skipped
        else TaskStatus.success, ""⟩], none)) ∧
    (∀ nm m tr, Feature.run_with_tracking nm (ExecR.exc m) tr =
      (tr ++ [⟨nm, TaskStatus.failed, m.take 50⟩], some m)) := by
  refine ⟨List.sorted_insertionSort _ _, ?_, fun nm v tr => rfl, fun nm m tr => rfl⟩
  simpa using App.execute_eq outcome cont (App.sortSelection ts) []

/-- C4 counterexample: `ConfigureWSL.execute` run twice in a row against
the same context, with the first call tracked as Success, is tracked as
Success again on the second call — not Skipped: the task has no
already-configured check and simply rewrites the file. -/
theorem c4_idempotence_counterexample :
    (trackRecordOf "配置 WSL" (ConfigureWSL.execute
      (mkContext (fun _ => "/home/alice") "alice" "pw" "/bin/zsh" true)
      none).1).status = TaskStatus.success ∧
    (trackRecordOf "配置 WSL" (ConfigureWSL.execute
      (mkContext (fun _ => "/home/alice") "alice" "pw" "/bin/zsh" true)
      (ConfigureWSL.execute
        (mkContext (fun _ => "/home/alice") "alice" "pw" "/bin/zsh" true)
        none).2).1).status = TaskStatus.success ∧
    TaskStatus.success ≠ TaskStatus.skipped := by
  exact ⟨rfl, rfl, by decide⟩

/-- C4 (amended): tasks with a goal-state check return Skipped with no
further side effects when re-run after success — `CreateUser` is proved
here as the representative — but `ConfigureMirrors` (when mirrors are
enabled, the mirrorlist existed beforehand, and the configured URLs are
well-formed so that content generation succeeds) and `ConfigureWSL`
return Success again on the second call: the repeat run rewrites the
same content, leaving the state exactly as after the first run (so no
duplicate ledger entries or file lines arise), without reporting
Skipped. With mirrors disabled, `ConfigureMirrors` returns Skipped
without touching state; with a malformed mirror URL (fewer than three
`/`-separated parts), `ConfigureMirrors` raises `IndexError` — its
first call is then not a Success and the idempotence claim does not
apply to it. -/
theorem c4_second_run_behaviour (ctx : Context) (cfg : MirrorsCfg)
    (wsl0 : Option String) (mst : MirrorsState) (ust : UserSysState)
    (hml : mst.mirrorlist ≠ none) :
    (ConfigureWSL.execute ctx (ConfigureWSL.execute ctx wsl0).2 =
      (ExecR.ret none, (ConfigureWSL.execute ctx wsl0).2)) ∧
    (cfg.enable_china_mirrors = true →
      mirrorsContent cfg.china_mirrors ≠ none →
      ConfigureMirrors.execute cfg (ConfigureMirrors.execute cfg mst).2 =
        (ExecR.ret none, (ConfigureMirrors.execute cfg mst).2)) ∧
    (cfg.enable_china_mirrors = true →
      mirrorsContent cfg.china_mirrors = none →
      (ConfigureMirrors.execute cfg mst).1 =
        ExecR.exc "list index out of range") ∧
    (cfg.enable_china_mirrors = false →
      ConfigureMirrors.execute cfg mst = (ExecR.ret (some "skipped"), mst)) ∧
    ((CreateUser.execute ctx ust).1 = ExecR.ret none →
      CreateUser.execute ctx (CreateUser.execute ctx ust).2 =
        (ExecR.ret (some "skipped"), (CreateUser.execute ctx ust).2)) := by
  refine ⟨rfl, ?_, ?_, ?_, ?_⟩
  · intro hen hgen
    obtain ⟨ml, hml2⟩ := Option.ne_none_iff_exists'.mp hml
    obtain ⟨content, hcont⟩ := Option.ne_none_iff_exists'.mp hgen
    by_cases hb : mst.backup = none
    · simp [ConfigureMirrors.execute, hen, hb, hml2, hcont]
    · simp [ConfigureMirrors.execute, hen, hb, hml2, hcont]
  · intro hen hgen
    by_cases hb : mst.backup = none
    · simp [ConfigureMirrors.execute, hen, hb, hgen]
    · simp [ConfigureMirrors.execute, hen, hb, hgen]
  · intro hen
    simp [ConfigureMirrors.execute, hen]
  · intro hfirst
    by_cases hmem : ctx.username ∈ ust.users
    · rw [CreateUser.execute] at hfirst
      simp [hmem] at hfirst
    · simp [CreateUser.execute, hmem]

/-- Witness for C4 (amended) at a concrete context and concrete states:
the WSL and mirrors tasks rewrite identical state and return Success on
the repeat run, and `CreateUser` skips its second run after a successful
first one. -/
theorem c4_second_run_behaviour_witness :
    (ConfigureWSL.execute
      (mkContext (fun _ => "/home/alice") "alice" "pw" "/bin/zsh" true)
      (ConfigureWSL.execute
        (mkContext (fun _ => "/home/alice") "alice" "pw" "/bin/zsh" true)
        none).2 =
      (ExecR.ret none, (ConfigureWSL.execute
        (mkContext (fun _ => "/home/alice") "alice" "pw" "/bin/zsh" true)
        none).2)) ∧
    (ConfigureMirrors.execute ⟨true, ["https://mirrors.tuna.tsinghua.edu.cn/archlinux/x/y"]⟩
      (ConfigureMirrors.execute ⟨true, ["https://mirrors.tuna.tsinghua.edu.cn/archlinux/x/y"]⟩
        ⟨some "original mirrorlist", none⟩).2 =
      (ExecR.ret none, (ConfigureMirrors.execute
        ⟨true, ["https://mirrors.tuna.tsinghua.edu.cn/archlinux/x/y"]⟩
        ⟨some "original mirrorlist", none⟩).2)) ∧
    (CreateUser.execute
      (mkContext (fun _ => "/home/alice") "alice" "pw" "/bin/zsh" true)
      (CreateUser.execute
        (mkContext (fun _ => "/home/alice") "alice" "pw" "/bin/zsh" true)
        ⟨[], [], "# %wheel ALL=(ALL:ALL) ALL\n"⟩).2 =
      (ExecR.ret (some "skipped"), (CreateUser.execute
        (mkContext (fun _ => "/home/alice") "alice" "pw" "/bin/zsh" true)
        ⟨[], [], "# %wheel ALL=(ALL:ALL) ALL\n"⟩).2)) := by
  have h := c4_second_run_behaviour
    (mkContext (fun _ => "/home/alice") "alice" "pw" "/bin/zsh" true)
    ⟨true, ["https://mirrors.tuna.tsinghua.edu.cn/archlinux/x/y"]⟩
    none ⟨some "original mirrorlist", none⟩
    ⟨[], [], "# %wheel ALL=(ALL:ALL) ALL\n"⟩ (by decide)
  exact ⟨h.1, h.2.1 rfl (by decide), h.2.2.2.2 (by decide)⟩

/-- C5: on the failing input — the password-piping command
`echo 'alice:hunter2' | chpasswd` whose execution fails on every
attempt — the DEBUG line `run` itself logs is masked (the raw secret
`hunter2` appears in no DEBUG line, which instead carries the masked
command), but the retry wrapper's WARNING (and ERROR) lines embed
`str(e)` of the `CalledProcessError`, which contains the executed
command verbatim: the raw secret reaches the persistent log. -/
theorem c5_secret_leak_in_retry_logs :
    mask_sensitive_info "echo \'alice:hunter2\' | chpasswd" =
      "echo \'***:***\' | chpasswd" ∧
    ((run (fun _ => 1) "echo \'alice:hunter2\' | chpasswd" none true true).2.filter
      (fun l => l.level == "DEBUG")).all
      (fun l => !(listHasInfix "hunter2".toList l.text.toList)) = true ∧
    ((run (fun _ => 1) "echo \'alice:hunter2\' | chpasswd" none true true).2.any
      (fun l => l.level == "WARNING" &&
        listHasInfix "hunter2".toList l.text.toList)) = true := by
  exact ⟨by decide, by decide, by decide⟩

/-- C9: the shared context resolves its derived home directory only once
the identity is known — the default context has `user_home = ""`, the
dataclass constructor resolves it exactly when a username is supplied —
and after data collection (for any accepted inputs, the accepted username
being nonempty) the home directory always equals `getHome` of the current
username, never a stale value: it is `""` while the username is `""`,
and `getHome username` once a username is set. -/
theorem c9_context_home_invariant (getHome : String → String)
    (selected : List String) (u pwd shellChoice : String)
    (systemdAns u_exists : Bool) (hu : u ≠ "") :
    ((App.collect_data getHome selected u u_exists pwd shellChoice systemdAns
      (defaultContext getHome)).username = "" →
     (App.collect_data getHome selected u u_exists pwd shellChoice systemdAns
      (defaultContext getHome)).user_home = "") ∧
    ((App.collect_data getHome selected u u_exists pwd shellChoice systemdAns
      (defaultContext getHome)).username ≠ "" →
     (App.collect_data getHome selected u u_exists pwd shellChoice systemdAns
      (defaultContext getHome)).user_home =
       getHome (App.collect_data getHome selected u u_exists pwd shellChoice
         systemdAns (defaultContext getHome)).username) ∧
    (defaultContext getHome).user_home = "" ∧
    (∀ nm pw sh sd, nm ≠ "" →
      (mkContext getHome nm pw sh sd).user_home = getHome nm) := by
  have hmain :
      ((App.collect_data getHome selected u u_exists pwd shellChoice systemdAns
        (defaultContext getHome)).username = "" ∧
       (App.collect_data getHome selected u u_exists pwd shellChoice systemdAns
        (defaultContext getHome)).user_home = "") ∨
      ((App.collect_data getHome selected u u_exists pwd shellChoice systemdAns
        (defaultContext getHome)).username = u ∧
       (App.collect_data getHome selected u u_exists pwd shellChoice systemdAns
        (defaultContext getHome)).user_home = getHome u) := by
    by_cases hn : (selected.any fun k =>
        ((Registry.get registryDict k).map (fun f => f.needs_user)).getD false) = true
    · right
      by_cases hex : u_exists = true
      · constructor <;>
          simp [App.collect_data, hn, hex, defaultContext, mkContext,
            apply_ite Context.username, apply_ite Context.user_home]
      · constructor <;>
          simp [App.collect_data, hn, hex, defaultContext, mkContext, hu,
            apply_ite Context.username, apply_ite Context.user_home]
    · left
      constructor <;> simp [App.collect_data, hn, defaultContext, mkContext]
  refine ⟨?_, ?_, rfl, ?_⟩
  · intro h
    rcases hmain with ⟨_, h2⟩ | ⟨h1, _⟩
    · exact h2
    · exact absurd (h1 ▸ h) hu
  · intro h
    rcases hmain with ⟨h1, _⟩ | ⟨h1, h2⟩
    · exact absurd h1 h
    · rw [h1, h2]
  · intro nm pw sh sd hnm
    have hb : (nm == "") = false := beq_eq_false_iff_ne.mpr hnm
    simp [mkContext, hb]

/-- Witness for C9 at a concrete accepted input: a fresh username
`alice`, not yet existing, with the `user` and `wsl` tasks selected. -/
theorem c9_context_home_invariant_witness :
    ((App.collect_data (fun n => "/home/" ++ n) ["user", "wsl"] "alice" false
      "pw" "2" true (defaultContext (fun n => "/home/" ++ n))).username = "" →
     (App.collect_data (fun n => "/home/" ++ n) ["user", "wsl"] "alice" false
      "pw" "2" true (defaultContext (fun n => "/home/" ++ n))).user_home = "") ∧
    ((App.collect_data (fun n => "/home/" ++ n) ["user", "wsl"] "alice" false
      "pw" "2" true (defaultContext (fun n => "/home/" ++ n))).username ≠ "" →
     (App.collect_data (fun n => "/home/" ++ n) ["user", "wsl"] "alice" false
      "pw" "2" true (defaultContext (fun n => "/home/" ++ n))).user_home =
       (fun n => "/home/" ++ n) (App.collect_data (fun n => "/home/" ++ n)
         ["user", "wsl"] "alice" false "pw" "2" true
         (defaultContext (fun n => "/home/" ++ n))).username) ∧
    (defaultContext (fun n => "/home/" ++ n)).user_home = "" ∧
    (∀ nm pw sh sd, nm ≠ "" →
      (mkContext (fun n => "/home/" ++ n) nm pw sh sd).user_home =
        "/home/" ++ nm) :=
  c9_context_home_invariant (fun n => "/home/" ++ n) ["user", "wsl"] "alice"
    "pw" "2" true false (by decide)

theorem dictGet_some_mem {α : Type} (l : List (String × α)) (k2 : String)
    (x : α) (h : dictGet l k2 = some x) : ∃ q ∈ l, q.2 = x := by
  rw [dictGet] at h
  rcases Option.map_eq_some'.mp h with ⟨q, hq, hqx⟩
  exact ⟨q, List.mem_of_find?_eq_some hq, hqx⟩

theorem mem_dictSet {α : Type} (d : List (String × α)) (k : String) (v : α)
    (q : String × α) (h : q ∈ dictSet d k v) :
    q = (k, v) ∨ (q ∈ d ∧ (q.1 == k) = false) := by
  rw [dictSet] at h
  by_cases ha : d.any (fun p => p.1 == k) = true
  · rw [if_pos ha] at h
    rcases List.mem_map.mp h with ⟨r, hr, hrq⟩
    by_cases hrk : (r.1 == k) = true
    · left; rw [← hrq, if_pos hrk]
    · right
      rw [← hrq, if_neg hrk]
      exact ⟨hr, by simpa using hrk⟩
  · rw [if_neg ha] at h
    rcases List.mem_append.mp h with hq | hq
    · right
      refine ⟨hq, ?_⟩
      have ha2 : d.any (fun p => p.1 == k) = false := eq_false_of_ne_true ha
      exact eq_false_of_ne_true (List.any_eq_false.mp ha2 q hq)
    · left; simpa using hq

theorem dictGet_dictSet_self {α : Type} (d : List (String × α)) (k : String)
    (v : α) : dictGet (dictSet d k v) k = some v := by
  induction d with
  | nil => simp [dictSet, dictGet]
  | cons p rest ih =>
    by_cases hpk : (p.1 == k) = true
    · have ha : ((p :: rest).any (fun q => q.1 == k)) = true := by
        rw [List.any_cons, hpk, Bool.true_or]
      have hval : List.find? (fun q : String × α => q.1 == k)
          ((k, v) :: rest.map (fun q => if q.1 == k then (k, v) else q)) =
          some (k, v) :=
        List.find?_cons_of_pos _ (by simp)
      rw [dictSet, if_pos ha, List.map_cons, if_pos hpk, dictGet, hval,
        Option.map_some']
    · have hpk2 : ¬ p.1 = k := by simpa using hpk
      have hstep : dictSet (p :: rest) k v = p :: dictSet rest k v := by
        by_cases hr : rest.any (fun q => q.1 == k) = true
        · simp [dictSet, hpk, hpk2, hr]
        · simp [dictSet, hpk, hpk2, hr]
      have hval : List.find? (fun q : String × α => q.1 == k)
          (p :: dictSet rest k v) =
          List.find? (fun q : String × α => q.1 == k) (dictSet rest k v) :=
        List.find?_cons_of_neg _ hpk
      rw [hstep, dictGet, hval]
      exact ih

theorem countP_keys_le_one {α : Type} (d : List (String × α)) (k : String)
    (hnd : (d.map Prod.fst).Nodup) :
    d.countP (fun p => p.1 == k) ≤ 1 := by
  induction d with
  | nil => simp
  | cons p rest ih =>
    rw [List.map_cons, List.nodup_cons] at hnd
    rw [List.countP_cons]
    by_cases hpk : (p.1 == k) = true
    · have hk : k = p.1 := ((beq_iff_eq).mp hpk).symm
      have hz : rest.countP (fun q => q.1 == k) = 0 := by
        rw [List.countP_eq_zero]
        intro q hq
        subst hk
        intro hqk
        exact hnd.1 (List.mem_map.mpr ⟨q, hq, (beq_iff_eq).mp hqk⟩)
      simp [hz, hpk]
    · simp [hpk]
      exact ih hnd.2

theorem countP_dictSet_keys {α : Type} (d : List (String × α)) (k : String)
    (v : α) :
    (dictSet d k v).countP (fun p => p.1 == k) =
      if d.any (fun p => p.1 == k) = true then d.countP (fun p => p.1 == k)
      else d.countP (fun p => p.1 == k) + 1 := by
  by_cases ha : d.any (fun p => p.1 == k) = true
  · rw [if_pos ha, dictSet, if_pos ha, List.countP_map]
    refine List.countP_congr ?_
    intro q _
    by_cases hqk : (q.1 == k) = true
    · simp [Function.comp, hqk]
    · simp [Function.comp, hqk]
  · rw [if_neg ha, dictSet, if_neg ha, List.countP_append]
    simp

theorem any_dictSet_self {α : Type} (d : List (String × α)) (k : String)
    (v : α) : (dictSet d k v).any (fun p => p.1 == k) = true := by
  by_cases ha : d.any (fun p => p.1 == k) = true
  · rw [dictSet, if_pos ha]
    rcases List.any_eq_true.mp ha with ⟨r, hr, hrk⟩
    refine List.any_eq_true.mpr ⟨(k, v), List.mem_map.mpr ⟨r, hr, ?_⟩, by simp⟩
    rw [if_pos hrk]
  · rw [dictSet, if_neg ha]
    refine List.any_eq_true.mpr ⟨(k, v), ?_, by simp⟩
    simp

/-- C10: registering two feature classes under the same key silently
overwrites: starting from any registry dict with pairwise distinct keys
in which `v1` is not yet a stored class, after `register(k, v1)` then
`register(k, v2)` with distinct classes, `get(k)` returns the second
class, the dict holds exactly one entry for `k`, no error is raised (the
operations are total), and the first class is no longer reachable under
any key. -/
theorem c10_registry_overwrite {α : Type} (d : List (String × α)) (k : String)
    (v1 v2 : α) (hnd : (d.map Prod.fst).Nodup) (hv : ∀ p ∈ d, p.2 ≠ v1)
    (hne : v1 ≠ v2) :
    Registry.get (Registry.register (Registry.register d k v1) k v2) k =
      some v2 ∧
    (Registry.register (Registry.register d k v1) k v2).countP
      (fun p => p.1 == k) = 1 ∧
    ∀ k2, Registry.get (Registry.register (Registry.register d k v1) k v2) k2 ≠
      some v1 := by
  refine ⟨dictGet_dictSet_self _ k v2, ?_, ?_⟩
  · rw [show Registry.register (Registry.register d k v1) k v2 =
      dictSet (dictSet d k v1) k v2 from rfl]
    rw [countP_dictSet_keys, if_pos (any_dictSet_self d k v1),
      countP_dictSet_keys]
    by_cases ha : d.any (fun p => p.1 == k) = true
    · rw [if_pos ha]
      have hle := countP_keys_le_one d k hnd
      have hpos : 0 < d.countP (fun p => p.1 == k) := by
        rcases List.any_eq_true.mp ha with ⟨r, hr, hrk⟩
        exact List.countP_pos_iff.mpr ⟨r, hr, hrk⟩
      omega
    · rw [if_neg ha]
      have hz : d.countP (fun p => p.1 == k) = 0 := by
        rw [List.countP_eq_zero]
        intro q hq hqk
        exact ha (List.any_eq_true.mpr ⟨q, hq, hqk⟩)
      omega
  · intro k2 hget
    rcases dictGet_some_mem _ k2 v1 hget with ⟨q, hq, hqv⟩
    rcases mem_dictSet _ k v2 q hq with hq2 | ⟨hq2, hqk⟩
    · exact hne (by rw [hq2] at hqv; exact hqv.symm)
    · rcases mem_dictSet _ k v1 q hq2 with hq3 | ⟨hq3, _⟩
      · rw [hq3] at hqk; simp at hqk
      · exact hv q hq3 hqv

/-- Witness for C10: an empty registry, key `user`, and two distinct
class identifiers 1 and 2. -/
theorem c10_registry_overwrite_witness :
    Registry.get (Registry.register (Registry.register ([] : List (String × Nat))
      "user" 1) "user" 2) "user" = some 2 ∧
    (Registry.register (Registry.register ([] : List (String × Nat)) "user" 1)
      "user" 2).countP (fun p => p.1 == "user") = 1 ∧
    ∀ k2, Registry.get (Registry.register (Registry.register
      ([] : List (String × Nat)) "user" 1) "user" 2) k2 ≠ some 1 :=
  c10_registry_overwrite [] "user" 1 2 (by decide) (by intro p hp; cases hp)
    (by decide)
